import Mathlib

/-!
Verification of the natural-language specification of the contiguous
growable sequence container in `src/vector.h` (classes `RawMemory<T>` and
`Vector<T>`), by a shallow embedding in Lean 4.

Modelling conventions:
* A `Vector<T>` state is modelled by `Vec α`: the capacity of its
  `RawMemory` buffer plus the list of live element values in cells
  `[0, size)`.  `size` is the length of that list, matching the invariant
  that exactly the first `size` cells are live.
* Moves of element values are modelled with value semantics (the
  destination receives the source's value) for the operations in which
  every live cell is read at most once before being overwritten or
  destroyed - `EmplaceBack`'s relocation, `Reserve`, `Erase`'s forward
  shift - so no moved-from cell's content is ever observed there.
  `Emplace`'s in-place path does read a moved-from cell again, so it is
  modelled over `Option` values: `some a` is a live cell holding `a`,
  `none` a live cell in a moved-from state (a `T` move need not leave
  the value behind).
* Exception behaviour of element constructors is modelled by fallible
  copy construction: `copyOk k` tells whether the k-th copy-constructor
  call of a scenario succeeds.  A function on such a scenario returns
  `Except (Vec α) (Vec α)` - `error s` means the exception propagates and
  the container fields are in state `s` - paired with an `Int` ledger:
  the net number of element objects constructed by the call and never
  destroyed by the time the exception (or the call) leaves, buffers
  included.  A leak shows up as a positive ledger on the error path.
* Cell-level liveness (needed for the in-place `Emplace` path) is
  modelled separately by `CellVec`, which tracks for every cell index
  whether the cell currently holds a live object.
-/

/-- Model of `Vector<T>` (src/vector.h lines 100-345): capacity of the
owned `RawMemory` and the values held by the live cells `[0, size)`. -/
structure Vec (α : Type) where
  cap : Nat
  elems : List α
deriving DecidableEq, Repr

namespace Vec

variable {α : Type}

/-- `Vector::Size` (line 147): the number of live cells. -/
def size (s : Vec α) : Nat := s.elems.length

/-- `Vector() = default` (line 107): empty, capacity 0. -/
def new : Vec α := ⟨0, []⟩

/-- `Vector::EmplaceBack` (lines 208-224), success path, value level.
If `size_ == Capacity()` a fresh buffer of `size_ == 0 ? 1 : size_ * 2`
cells is filled with the new element at index `size_` followed by the
relocated originals, the originals are destroyed and the buffers swapped;
otherwise the element is constructed in place at index `size_`.  In both
branches the live values become `elems ++ [v]` and `size_` grows by 1. -/
def EmplaceBack (v : α) (s : Vec α) : Vec α :=
  if s.size = s.cap then
    ⟨if s.size = 0 then 1 else s.size * 2, s.elems ++ [v]⟩
  else
    ⟨s.cap, s.elems ++ [v]⟩

/-- `Vector::PushBack` (lines 191-198) forwards to `EmplaceBack`. -/
def PushBack (v : α) (s : Vec α) : Vec α := EmplaceBack v s

/-- One move-assignment between cells, `cells[dst] = std::move(cells[src])`:
the destination receives the source's content and the source is left in a
moved-from state (`none`). -/
def moveCell (src dst : Nat) (cells : List (Option α)) : List (Option α) :=
  (cells.set dst (cells.getD src none)).set src none

/-- `std::move_backward(first, first + n, first + n + 1)` as in line 258:
`n` move-assignments shifting cells `[first, first + n)` one cell to the
right, backmost assignment first (`cells[first + n] =
std::move(cells[first + n - 1])` comes before the rest). -/
def moveBackwardN : Nat → Nat → List (Option α) → List (Option α)
  | 0, _, cells => cells
  | n + 1, first, cells =>
      moveBackwardN n first (moveCell (first + n) (first + n + 1) cells)

/-- `Vector::Emplace` (lines 228-270), success path, at offset `d = pos -
begin()`, with moved-from cells tracked (`some a` = live cell holding
`a`, `none` = live but moved-from).  On the reallocation path (`size_ ==
Capacity()`) the new element is constructed at cell `d` of a fresh
buffer of `size_ == 0 ? 1 : size_ * 2` cells (line 235), then
`uninitialized_move_n` (or the copy version) relocates `[0, d)` to
`[0, d)` and `[d, size_)` to `[d+1, size_+1)`; each original is read
exactly once, before being destroyed, so the fresh cells hold the
original values.  On the in-place path (`size_ < Capacity()`) with
`size_ != 0`: line 256 move-constructs cell `size_` from cell
`size_ - 1`, leaving cell `size_ - 1` moved-from; line 258 runs
`std::move_backward(begin() + distance, end(), end() + 1)`, shifting the
`size_ - d` cells `[d, size_)` one step right - the just-husked cell
`size_ - 1` included - and line 264 destroys cell `d`, where line 266
then constructs the new element.  With `size_ == 0` (so `d = 0` by the
assertion) the element is constructed directly at cell 0.  Returns the
offset `d` (`begin() + d`). -/
def Emplace (d : Nat) (v : α) (s : Vec α) : Vec (Option α) × Nat :=
  if s.size = s.cap then
    (⟨if s.size = 0 then 1 else s.size * 2,
      (s.elems.take d).map some ++ some v :: (s.elems.drop d).map some⟩, d)
  else
    if s.size ≠ 0 then
      (⟨s.cap,
        (((moveBackwardN (s.size - d) d
              ((s.elems.map some).set (s.size - 1) none
                ++ [(s.elems.map some).getD (s.size - 1) none])).set d
            none).set d (some v))⟩, d)
    else
      (⟨s.cap, [some v]⟩, d)

/-- `Vector::Insert` (lines 274-279) forwards to `Emplace`. -/
def Insert (d : Nat) (v : α) (s : Vec α) : Vec (Option α) × Nat :=
  Emplace d v s

/-- `Vector::PopBack` (lines 171-176): if `size_ > 0`, destroy cell
`size_ - 1` and decrement `size_`; otherwise do nothing. -/
def PopBack (s : Vec α) : Vec α :=
  if 0 < s.size then ⟨s.cap, s.elems.dropLast⟩ else s

/-- `Vector::Erase` (lines 282-288) at offset `d = pos - cbegin()`:
`std::move(begin() + d + 1, end(), begin() + d)` move-assigns the values
of cells `[d+1, size_)` one cell to the left, leaving cell `size_ - 1`
live in a moved-from state (value level: its old value) - so the live
values become `take d ++ drop (d+1) ++ drop (size_-1)` - then `PopBack`
destroys that last cell.  Returns `begin() + d`, modelled as offset `d`. -/
def Erase (d : Nat) (s : Vec α) : Vec α × Nat :=
  (PopBack ⟨s.cap,
    s.elems.take d ++ s.elems.drop (d + 1) ++ s.elems.drop (s.size - 1)⟩, d)

/-- The precondition assertion of `Vector::Erase` (line 283):
`assert(pos >= cbegin() && pos <= cend())`, i.e. `0 ≤ d ∧ d ≤ size_` for
`d = pos - cbegin()`. -/
def eraseAssert (d : Nat) (s : Vec α) : Bool := decide (d ≤ s.size)

/-- The first cell index read by the left-shift `std::move(begin() +
distance + 1, end(), begin() + distance)` of `Vector::Erase` (line 285). -/
def eraseShiftStart (d : Nat) : Nat := d + 1

/-- `Vector::operator=(const Vector&)` (lines 301-323), value level.
`same` models the address check `this != &other` (so a call with `same =
true` has `other = this`).  If `other.Size() > Capacity()`, a temporary
`Vector other_copy(other)` is built - the copy constructor (line 112)
allocates capacity `other.Size()` - and swapped in.  Otherwise the common
prefix is copy-assigned in place and either the tail `[other.Size(),
size_)` is destroyed or cells `[size_, other.Size())` are
copy-constructed, and `size_` becomes `other.Size()`; in both sub-branches
the live values become `other.elems` and the capacity is kept. -/
def copyAssign (this other : Vec α) (same : Bool) : Vec α :=
  if same then this
  else if other.size > this.cap then ⟨other.size, other.elems⟩
  else if other.size < this.size then ⟨this.cap, other.elems⟩
  else ⟨this.cap, other.elems⟩

/-- `Vector::Swap` (lines 201-204): exchange `size_` and the buffers. -/
def swap (a b : Vec α) : Vec α × Vec α := (b, a)

/-- `Vector::operator=(Vector&&)` (lines 324-329): self-check then
`Swap`.  Returns the pair (target, source) after the call. -/
def moveAssign (this other : Vec α) (same : Bool) : Vec α × Vec α :=
  if same then (this, other) else swap this other

/-- `Vector(Vector&&)` (lines 116-118): the target starts default
(capacity 0, size 0) and swaps with the source.  Returns the pair
(constructed vector, source after the call). -/
def moveCtor (other : Vec α) : Vec α × Vec α := swap new other

/-- `std::uninitialized_copy_n` as used by `__CopyMoveConstruct` (line
338) for a copy-relocated `T`, with fallible copy construction: the k-th
copy-constructor call of the scenario succeeds iff `copyOk k`.  On
success the fresh cells hold the same values.  If a call raises,
`std::uninitialized_copy_n` destroys the objects it itself already
constructed and lets the exception propagate, so no object constructed
by this call survives (`none`). -/
def copyAll (copyOk : Nat → Bool) (k : Nat) : List α → Option (List α)
  | [] => some []
  | x :: xs => if copyOk k then (copyAll copyOk (k + 1) xs).map (x :: ·) else none

/-- `Vector::Reserve` (lines 156-168) under fallible copy-relocation.
Result: the `Except` is the final container state (`error` = exception
propagated), the `Int` is the net number of element objects constructed
by the call and never destroyed.  If `new_capacity <= Capacity()` the
call returns at once.  Otherwise `__CopyMoveConstruct` copy-relocates
into the fresh buffer: on success `size_` copies are constructed and the
`size_` originals destroyed (net 0 new objects beyond the relocated
ones), on failure `uninitialized_copy_n` has destroyed every object it
constructed and the fresh `RawMemory` is deallocated by its destructor,
so nothing survives (net 0) and the fields `data_`/`size_` are untouched. -/
def ReserveExc (copyOk : Nat → Bool) (n : Nat) (s : Vec α) :
    Except (Vec α) (Vec α) × Int :=
  if n ≤ s.cap then (Except.ok s, 0)
  else
    match copyAll copyOk 0 s.elems with
    | some copied => (Except.ok ⟨n, copied⟩, 0)
    | none => (Except.error s, 0)

/-- `Vector::EmplaceBack` (lines 208-224) on the reallocation path under
fallible copy-relocation (the new element's own construction at
`tmp_mem + size_`, line 213, is assumed to succeed; the claim injects
the failure into the relocation copies).  Ledger as in `ReserveExc`.  On
success: the new element plus `size_` copies are constructed and the
`size_` originals destroyed - net `+1`, the appended element.  On a
relocation failure: `uninitialized_copy_n` destroys the copies it made,
but the element already constructed at index `size_` of `tmp_mem` is
never destroyed - the `RawMemory` destructor (lines 28-30) only
deallocates raw storage - so the exception leaves `data_`/`size_`
untouched with a net `+1` leaked object. -/
def EmplaceBackExc (copyOk : Nat → Bool) (v : α) (s : Vec α) :
    Except (Vec α) (Vec α) × Int :=
  if s.size = s.cap then
    match copyAll copyOk 0 s.elems with
    | some copied =>
        (Except.ok ⟨if s.size = 0 then 1 else s.size * 2, copied ++ [v]⟩, 1)
    | none => (Except.error s, 1)
  else (Except.ok ⟨s.cap, s.elems ++ [v]⟩, 1)

end Vec

/-- Model of `RawMemory<T>` (src/vector.h lines 9-98): `buffer_` is the
identity of the owned allocation (`none` models `nullptr`), `capacity_`
the stored capacity. -/
structure RawMemory where
  buffer_ : Option Nat
  capacity_ : Nat
deriving DecidableEq, Repr

namespace RawMemory

/-- The documented invariant of `RawMemory`: `ptr == null ⇔ capacity == 0`. -/
def inv (r : RawMemory) : Prop := r.buffer_ = none ↔ r.capacity_ = 0

/-- `RawMemory(RawMemory&& other)` (lines 20-26): the fields move to the
new object and the source is zeroed.  Returns (constructed, source). -/
def moveCtorR (other : RawMemory) : RawMemory × RawMemory :=
  (⟨other.buffer_, other.capacity_⟩, ⟨none, 0⟩)

/-- `RawMemory::operator=(RawMemory&&)` (lines 58-65), field level.
`same` models `this == &other`.  On the non-self path the code runs
`Deallocate(buffer_)` - which frees the allocation but leaves the field
`buffer_` holding the old pointer value - then `capacity_ = 0`, then
`Swap(other)`.  So the target receives `other`'s fields and the source
ends with the target's OLD `buffer_` value (now dangling) and capacity 0.
Returns (target, source) after the call. -/
def moveAssignR (this other : RawMemory) (same : Bool) : RawMemory × RawMemory :=
  if same then (this, other)
  else (⟨other.buffer_, other.capacity_⟩, ⟨this.buffer_, 0⟩)

end RawMemory

/-- Cell-level liveness model of a `Vector<T>` buffer: `live i` tells
whether cell `i` currently holds a live object.  Used for the in-place
path of `Vector::Emplace`. -/
structure CellVec where
  cap : Nat
  size : Nat
  live : Nat → Bool

namespace CellVec

/-- The container invariant: `size ≤ capacity` and exactly the cells
`[0, size)` are live. -/
def inv (s : CellVec) : Prop :=
  s.size ≤ s.cap ∧ ∀ i, s.live i = decide (i < s.size)

/-- Construct or destroy the object in cell `i`. -/
def setLive (i : Nat) (b : Bool) (s : CellVec) : CellVec :=
  { s with live := fun j => if j = i then b else s.live j }

/-- The in-place path of `Vector::Emplace` (lines 254-267, taken when
`size_ < Capacity()`), cell-liveness level, at offset `d`, with failure
injection: `ctorOk` = the new element's own construction at cell `d`
(line 266) succeeds; `shiftOk` = the `std::move_backward` tail shift
(line 258) succeeds.  Following the source: if `size_ != 0`, cell
`size_` is move-constructed from cell `size_ - 1`; if the shift then
raises, the catch block destroys cell `size_` and re-raises (lines
260-263); otherwise cell `d` is destroyed (line 264).  Then the new
element is constructed at cell `d` and `size_` incremented; if that
construction raises the exception propagates with no further cleanup. -/
def emplaceInPlace (d : Nat) (ctorOk shiftOk : Bool) (s : CellVec) :
    Except CellVec CellVec :=
  match (if s.size = 0 then Except.ok s
         else
           let s1 := setLive s.size true s
           if shiftOk then Except.ok (setLive d false s1)
           else Except.error (setLive s.size false s1)) with
  | Except.error e => Except.error e
  | Except.ok s2 =>
      if ctorOk then Except.ok { setLive d true s2 with size := s.size + 1 }
      else Except.error s2

end CellVec

/-- A concrete in-place-insert scenario for the counterexample: one live
element, capacity 2, insert at offset 0. -/
def cellVec1 : CellVec := ⟨2, 1, fun i => decide (i < 1)⟩

/-- Observable size of the state carried by the error branch. -/
def errSize : Except CellVec CellVec → Option Nat
  | Except.error e => some e.size
  | Except.ok _ => none

/-- Observable liveness of cell `i` in the state carried by the error
branch. -/
def errLive (i : Nat) : Except CellVec CellVec → Option Bool
  | Except.error e => some (e.live i)
  | Except.ok _ => none

/-- Observable size of the state returned on the success branch. -/
def okSize : Except CellVec CellVec → Option Nat
  | Except.error _ => none
  | Except.ok r => some r.size

/-- Observable liveness of cell `i` in the state returned on the success
branch. -/
def okLive (i : Nat) : Except CellVec CellVec → Option Bool
  | Except.error _ => none
  | Except.ok r => some (r.live i)

/-- C4: `push_back` at `size == capacity` grows the capacity to
`max(1, 2*capacity)`; every successful `push_back(x)` appends `x` (size
grows by 1, last element is `x`, earlier elements unchanged); and ten
`push_back(i)` calls on a default-constructed sequence produce the
capacity trace 0,1,2,4,4,8,8,8,8,16,16, final size 10 and `s[i] = i`. -/
theorem pushBack_spec {α : Type} (s : Vec α) (v : α) :
    (s.size = s.cap → (s.PushBack v).cap = max 1 (2 * s.cap)) ∧
    (s.PushBack v).size = s.size + 1 ∧
    (s.PushBack v).elems = s.elems ++ [v] ∧
    ((List.range 10).scanl (fun t i => Vec.PushBack i t) (Vec.new : Vec Nat)).map
        Vec.cap = [0, 1, 2, 4, 4, 8, 8, 8, 8, 16, 16] ∧
    ((List.range 10).foldl (fun t i => Vec.PushBack i t) (Vec.new : Vec Nat)).size
        = 10 ∧
    ((List.range 10).foldl (fun t i => Vec.PushBack i t) (Vec.new : Vec Nat)).elems
        = List.range 10 := by
  refine ⟨?_, ?_, ?_, by decide, by decide, by decide⟩
  · intro h
    simp only [Vec.PushBack, Vec.EmplaceBack, if_pos h]
    rw [← h]
    split <;> omega
  · simp only [Vec.PushBack, Vec.EmplaceBack]
    split <;> simp [Vec.size]
  · simp only [Vec.PushBack, Vec.EmplaceBack]
    split <;> rfl

/-- Witness for C4 at a concrete full sequence: capacity 2, two elements. -/
theorem pushBack_spec_witness :
    (((⟨2, [9, 9]⟩ : Vec Nat)).PushBack 3).cap = max 1 (2 * (⟨2, [9, 9]⟩ : Vec Nat).cap) :=
  (pushBack_spec (⟨2, [9, 9]⟩ : Vec Nat) 3).1 rfl

/-- Helper: a successful fallible copy relocation reproduces the source
values. -/
theorem copyAll_some_eq {α : Type} (f : Nat → Bool) :
    ∀ (k : Nat) (l l2 : List α), Vec.copyAll f k l = some l2 → l2 = l := by
  intro k l
  induction l generalizing k with
  | nil =>
    intro l2 h
    simp only [Vec.copyAll] at h
    exact (Option.some.injEq _ _ ▸ h).symm
  | cons x xs ih =>
    intro l2 h
    by_cases hb : f k
    · simp only [Vec.copyAll, hb, if_true, Option.map_eq_some'] at h
      obtain ⟨a, ha, rfl⟩ := h
      rw [ih (k + 1) a ha]
    · simp [Vec.copyAll, hb] at h

/-- C7: `reserve(n)` with `n ≤ capacity` changes nothing; with `n >
capacity` it produces capacity exactly `n` with values and ordering
unchanged, so afterwards `capacity = max(n, old capacity)`; and if the
copy-relocation raises, the sequence is unchanged and no constructed
object survives (strong guarantee, net object ledger 0). -/
theorem reserve_spec {α : Type} (copyOk : Nat → Bool) (n : Nat) (s : Vec α) :
    (n ≤ s.cap → Vec.ReserveExc copyOk n s = (Except.ok s, 0)) ∧
    (∀ r d, Vec.ReserveExc copyOk n s = (Except.ok r, d) →
      r.cap = max n s.cap ∧ r.elems = s.elems ∧ d = 0) ∧
    (∀ e d, Vec.ReserveExc copyOk n s = (Except.error e, d) → e = s ∧ d = 0) := by
  by_cases h : n ≤ s.cap
  · refine ⟨fun _ => by simp [Vec.ReserveExc, h], ?_, ?_⟩
    · intro r d hr
      simp only [Vec.ReserveExc, h, if_true, Prod.mk.injEq] at hr
      obtain ⟨hr1, hr2⟩ := hr
      cases hr1
      exact ⟨by omega, rfl, hr2.symm⟩
    · intro e d he
      simp [Vec.ReserveExc, h] at he
  · refine ⟨fun hc => absurd hc h, ?_, ?_⟩
    · intro r d hr
      rcases hc : Vec.copyAll copyOk 0 s.elems with _ | copied
      · simp [Vec.ReserveExc, h, hc] at hr
      · simp only [Vec.ReserveExc, h, if_false, hc, Prod.mk.injEq] at hr
        obtain ⟨hr1, hr2⟩ := hr
        cases hr1
        refine ⟨?_, copyAll_some_eq copyOk 0 s.elems copied hc, hr2.symm⟩
        show n = max n s.cap
        omega
    · intro e d he
      rcases hc : Vec.copyAll copyOk 0 s.elems with _ | copied
      · simp only [Vec.ReserveExc, h, if_false, hc, Prod.mk.injEq] at he
        obtain ⟨he1, he2⟩ := he
        cases he1
        exact ⟨rfl, he2.symm⟩
      · simp [Vec.ReserveExc, h, hc] at he

/-- Witness for C7: a no-op reserve on a concrete sequence. -/
theorem reserve_spec_witness :
    Vec.ReserveExc (fun _ => true) 0 (⟨1, [3]⟩ : Vec Nat) = (Except.ok ⟨1, [3]⟩, 0) :=
  (reserve_spec (fun _ => true) 0 (⟨1, [3]⟩ : Vec Nat)).1 (by decide)

/-- C9: move construction hands the source's whole state (elements in
order, and the buffer) to the new vector and leaves the source with size
0 and capacity 0. -/
theorem moveCtor_spec {α : Type} (a : Vec α) :
    (Vec.moveCtor a).1 = a ∧ (Vec.moveCtor a).2.size = 0 ∧
      (Vec.moveCtor a).2.cap = 0 :=
  ⟨rfl, rfl, rfl⟩

/-- C10: at `pos == end()` (offset `d = size`), which violates the
documented erase precondition `d < size`, the assertion of
`Vector::Erase` still passes, and the left shift's source range starts
at cell `size + 1`, past every live cell. -/
theorem erase_end_assert :
    ¬ (3 < (⟨3, [1, 2, 3]⟩ : Vec Nat).size) ∧
    Vec.eraseAssert 3 (⟨3, [1, 2, 3]⟩ : Vec Nat) = true ∧
    (⟨3, [1, 2, 3]⟩ : Vec Nat).size < Vec.eraseShiftStart 3 := by
  refine ⟨by decide, by decide, by decide⟩

/-- C8: copy assignment between distinct vectors makes the target equal
the source element-by-element with size `src.size`; the capacity is
rebuilt to `src.size` via copy-and-swap exactly when `src.size` exceeds
the old capacity and is kept otherwise; and self-assignment (copy or
move) leaves the vector unchanged. -/
theorem copyAssign_spec {α : Type} (a b : Vec α) :
    (Vec.copyAssign a b false).elems = b.elems ∧
    (Vec.copyAssign a b false).size = b.size ∧
    (Vec.copyAssign a b false).cap = (if b.size > a.cap then b.size else a.cap) ∧
    Vec.copyAssign a a true = a ∧
    Vec.moveAssign a a true = (a, a) := by
  refine ⟨?_, ?_, ?_, rfl, rfl⟩ <;>
    simp only [Vec.copyAssign, Bool.false_eq_true, if_false] <;>
    split <;> (try split) <;> simp_all [Vec.size]

/-- C3 (evaluation at the failing input): move construction zeroes the
source correctly, but move assignment into a `RawMemory` that owned an
allocation (buffer id 1, capacity 1) from a source owning buffer id 2
leaves the source holding the target's old - now freed - pointer with
capacity 0, so the source violates `ptr == null ⇔ capacity == 0` (and
its destructor will deallocate that pointer a second time). -/
theorem rawMemory_moveAssign_dangling :
    RawMemory.moveCtorR ⟨some 2, 1⟩ = (⟨some 2, 1⟩, ⟨none, 0⟩) ∧
    RawMemory.moveAssignR ⟨some 1, 1⟩ ⟨some 2, 1⟩ false = (⟨some 2, 1⟩, ⟨some 1, 0⟩) ∧
    ¬ RawMemory.inv ⟨some 1, 0⟩ := by
  refine ⟨rfl, rfl, fun h => ?_⟩
  simp [RawMemory.inv] at h

/-- C1 (evaluation at the failing input): appending 7 to the full
sequence `[5]` (size 1 = capacity) with a copy constructor that raises
on the relocation copy leaves the sequence unchanged, but the net object
ledger is 1, not 0: the element already constructed at index `size` of
the fresh buffer is never destroyed (the fresh `RawMemory`'s destructor
only frees raw storage), contradicting the claim that every
already-constructed cell of the fresh buffer, the new element included,
is destroyed. -/
theorem emplaceBack_relocation_leak :
    Vec.EmplaceBackExc (fun _ => false) 7 (⟨1, [5]⟩ : Vec Nat)
      = (Except.error (⟨1, [5]⟩ : Vec Nat), 1) ∧
    (1 : Int) ≠ 0 :=
  ⟨rfl, by decide⟩

/-- C5 (evaluation at the failing input): emplacing 7 at offset 0 of the
two-element sequence `[1, 2]` on the in-place path (capacity 4) yields
the cells `[7, 1, moved-from]` - the old last element 2 is lost, because
line 258's `std::move_backward` shifts `[d, size)`, one cell more than
the spec's `[d, size-1)`, so its first (backmost) assignment re-moves
cell 1, already husked by line 256, into cell 2 over the relocated
value.  The same insert on the reallocating path (capacity 2) yields
`[7, 1, 2]` as the claim demands of both paths. -/
theorem emplace_inplace_loses_last :
    Vec.Emplace 0 7 (⟨4, [1, 2]⟩ : Vec Nat)
      = (⟨4, [some 7, some 1, none]⟩, 0) ∧
    Vec.Emplace 0 7 (⟨2, [1, 2]⟩ : Vec Nat)
      = (⟨4, [some 7, some 1, some 2]⟩, 0) :=
  ⟨rfl, rfl⟩

/-- Helper: for `d < size`, `Erase` keeps the capacity, returns offset
`d`, and its live values are the original ones with index `d` removed. -/
theorem erase_elems {α : Type} (s : Vec α) (d : Nat) (h : d < s.size) :
    (Vec.Erase d s).1.elems = s.elems.take d ++ s.elems.drop (d + 1) ∧
    (Vec.Erase d s).1.cap = s.cap ∧ (Vec.Erase d s).2 = d := by
  have hlen : d < s.elems.length := h
  have hlen1 : (s.elems.drop (s.size - 1)).length = 1 := by
    simp only [List.length_drop, Vec.size]
    omega
  obtain ⟨x, hx⟩ := List.length_eq_one.mp hlen1
  have hpos : 0 < (Vec.mk s.cap
      (s.elems.take d ++ s.elems.drop (d + 1) ++ s.elems.drop (s.size - 1))).size := by
    show 0 < (s.elems.take d ++ s.elems.drop (d + 1) ++ s.elems.drop (s.size - 1)).length
    rw [List.length_append, hlen1]
    omega
  refine ⟨?_, ?_, rfl⟩
  · show (Vec.PopBack (Vec.mk s.cap
      (s.elems.take d ++ s.elems.drop (d + 1) ++ s.elems.drop (s.size - 1)))).elems = _
    unfold Vec.PopBack
    rw [if_pos hpos]
    show (s.elems.take d ++ s.elems.drop (d + 1) ++ s.elems.drop (s.size - 1)).dropLast = _
    rw [hx]
    simp
  · show (Vec.PopBack (Vec.mk s.cap
      (s.elems.take d ++ s.elems.drop (d + 1) ++ s.elems.drop (s.size - 1)))).cap = s.cap
    unfold Vec.PopBack
    rw [if_pos hpos]

/-- C6: for `d < size`, `erase(pos)` shrinks the size by 1, keeps the
capacity and the prefix `[0, d)`, shifts the elements formerly at
`[d+1, old_size)` unchanged to `[d, new_size)`, and returns offset `d` -
the cell now holding the element formerly at `d+1`, or `end()` when `d`
was the last index. -/
theorem erase_spec {α : Type} (s : Vec α) (d : Nat) (h : d < s.size) :
    (Vec.Erase d s).1.size = s.size - 1 ∧
    (Vec.Erase d s).1.cap = s.cap ∧
    (∀ i, i < d → (Vec.Erase d s).1.elems[i]? = s.elems[i]?) ∧
    (∀ i, d ≤ i → i + 1 < s.size → (Vec.Erase d s).1.elems[i]? = s.elems[i + 1]?) ∧
    (Vec.Erase d s).2 = d ∧
    (d + 1 = s.size → (Vec.Erase d s).2 = (Vec.Erase d s).1.size) := by
  obtain ⟨he, hc, hr⟩ := erase_elems s d h
  have hlen : d < s.elems.length := h
  have hlt : (s.elems.take d).length = d := by
    simp only [List.length_take]
    omega
  refine ⟨?_, hc, ?_, ?_, hr, ?_⟩
  · show (Vec.Erase d s).1.elems.length = s.size - 1
    rw [he]
    simp only [List.length_append, List.length_drop, hlt, Vec.size]
    omega
  · intro i hi
    rw [he, List.getElem?_append_left (by rw [hlt]; omega), List.getElem?_take]
    simp [hi]
  · intro i hi1 hi2
    rw [he, List.getElem?_append_right (by rw [hlt]; omega), hlt, List.getElem?_drop]
    congr 1
    omega
  · intro hend
    rw [hr]
    show d = (Vec.Erase d s).1.elems.length
    rw [he]
    simp only [List.length_append, List.length_drop, hlt, Vec.size] at *
    omega

/-- Witness for C6: erasing offset 2 of `[10, 20, 30, 40, 50]` leaves
the element formerly at index 3 in cell 2. -/
theorem erase_spec_witness :
    (Vec.Erase 2 (⟨8, [10, 20, 30, 40, 50]⟩ : Vec Nat)).1.elems[2]? = some 40 :=
  (erase_spec (⟨8, [10, 20, 30, 40, 50]⟩ : Vec Nat) 2 (by decide)).2.2.2.1 2
    (by decide) (by decide)

/-- Counterexample to C2 as stated: on the in-place insert path with one
live element (capacity 2), inserting at offset 0 with a new-element
constructor that raises does NOT leave the state unchanged: the
exception escapes after cell 0 was destroyed (line 264) and cell 1
move-constructed (line 256), with `size` still 1 - so cell 0, inside
`[0, size)`, is dead and cell 1, outside it, is live, breaking both the
claimed strong guarantee and the claimed live-range invariant. -/
theorem emplaceInPlace_ctorFail_cex :
    errSize (CellVec.emplaceInPlace 0 false true cellVec1) = some 1 ∧
    errLive 0 (CellVec.emplaceInPlace 0 false true cellVec1) = some false ∧
    errLive 1 (CellVec.emplaceInPlace 0 false true cellVec1) = some true ∧
    cellVec1.live 0 = true ∧ cellVec1.size = 1 ∧ cellVec1.cap = 2 :=
  ⟨rfl, rfl, rfl, rfl, rfl, rfl⟩

/-- C2 as amended: on the in-place insert path (`size < capacity`,
offset `d ≤ size`), (1) failure of the tail shift destroys the extra
cell at index `size` and re-raises with `size` unchanged and exactly
cells `[0, size)` live (basic guarantee, shift window possibly
moved-from); (2) on the empty path (`size = 0`) failure of the new
element's own constructor changes nothing (strong guarantee); (3) for
`size ≠ 0`, failure of the new element's own constructor re-raises with
`size` unchanged but cell `d` left destroyed and - when `d ≠ size` -
cell `size` left constructed, so the live-range invariant is broken
rather than preserved; (4) on success `size` grows by 1 and exactly
cells `[0, size+1)` are live. -/
theorem emplaceInPlace_spec (s : CellVec) (d : Nat) (hinv : s.inv)
    (_hcap : s.size < s.cap) (hd : d ≤ s.size) :
    (s.size ≠ 0 → ∀ c : Bool,
      errSize (CellVec.emplaceInPlace d c false s) = some s.size ∧
      ∀ i, errLive i (CellVec.emplaceInPlace d c false s)
          = some (decide (i < s.size))) ∧
    (s.size = 0 →
      errSize (CellVec.emplaceInPlace d false true s) = some s.size ∧
      ∀ i, errLive i (CellVec.emplaceInPlace d false true s) = some (s.live i)) ∧
    (s.size ≠ 0 →
      errSize (CellVec.emplaceInPlace d false true s) = some s.size ∧
      errLive d (CellVec.emplaceInPlace d false true s) = some false ∧
      (d ≠ s.size →
        errLive s.size (CellVec.emplaceInPlace d false true s) = some true) ∧
      ∀ i, i ≠ d → i ≠ s.size →
        errLive i (CellVec.emplaceInPlace d false true s) = some (s.live i)) ∧
    (okSize (CellVec.emplaceInPlace d true true s) = some (s.size + 1) ∧
     ∀ i, okLive i (CellVec.emplaceInPlace d true true s)
        = some (decide (i < s.size + 1))) := by
  refine ⟨?_, ?_, ?_, ?_⟩
  · intro hne c
    refine ⟨?_, ?_⟩
    · simp [CellVec.emplaceInPlace, hne, errSize, CellVec.setLive]
    · intro i
      by_cases hi : i = s.size
      · subst hi
        simp [CellVec.emplaceInPlace, hne, errLive, CellVec.setLive]
      · simp [CellVec.emplaceInPlace, hne, errLive, CellVec.setLive, hi,
          hinv.2 i]
  · intro h0
    refine ⟨?_, fun i => ?_⟩ <;>
      simp [CellVec.emplaceInPlace, h0, errSize, errLive]
  · intro hne
    refine ⟨?_, ?_, ?_, ?_⟩
    · simp [CellVec.emplaceInPlace, hne, errSize, CellVec.setLive]
    · simp [CellVec.emplaceInPlace, hne, errLive, CellVec.setLive]
    · intro hds
      simp [CellVec.emplaceInPlace, hne, errLive, CellVec.setLive,
        Ne.symm hds]
    · intro i hid his
      simp [CellVec.emplaceInPlace, hne, errLive, CellVec.setLive, hid, his]
  · by_cases h0 : s.size = 0
    · have hd0 : d = 0 := by omega
      subst hd0
      refine ⟨?_, fun i => ?_⟩
      · simp [CellVec.emplaceInPlace, h0, okSize, CellVec.setLive]
      · by_cases hi : i = 0
        · subst hi
          simp [CellVec.emplaceInPlace, h0, okLive, CellVec.setLive]
        · simp [CellVec.emplaceInPlace, h0, okLive, CellVec.setLive, hi,
            hinv.2 i, Nat.lt_one_iff]
    · refine ⟨?_, fun i => ?_⟩
      · simp [CellVec.emplaceInPlace, h0, okSize, CellVec.setLive]
      · by_cases hid : i = d
        · subst hid
          simp [CellVec.emplaceInPlace, h0, okLive, CellVec.setLive,
            Nat.lt_succ_iff, hd]
        · by_cases his : i = s.size
          · subst his
            simp [CellVec.emplaceInPlace, h0, okLive, CellVec.setLive, hid,
              Nat.lt_succ_iff]
          · simp [CellVec.emplaceInPlace, h0, okLive, CellVec.setLive, hid,
              his, hinv.2 i, Nat.lt_succ_iff]
            omega

/-- Witness for the amended C2 at the concrete scenario of the
counterexample input family: one live element, capacity 2, insert at
offset 0, tail shift fails. -/
theorem emplaceInPlace_spec_witness :
    errSize (CellVec.emplaceInPlace 0 false false cellVec1) = some cellVec1.size :=
  ((emplaceInPlace_spec cellVec1 0 ⟨by decide, fun i => rfl⟩ (by decide)
    (by decide)).1 (by decide) false).1
